import Mathlib

/-!
Verification of the ART `CompilerDriver` header (`compiler/driver/compiler_driver.h`):
a shallow embedding of the deduplication hash, the dedupe stores, the compiled-artifact
tables, the patch ledger and its record types, class resolution precedence, and the
image-class predicate, with theorems about the properties the specification states.

Machine integers: `size_t` is modelled as natural numbers reduced modulo `2 ^ 64`
wherever C++ arithmetic can wrap; bytes (`uint8_t`) are naturals below 256.
-/

namespace ArtDriver

/-- The modulus of `size_t` arithmetic (64-bit target). -/
def szMod : Nat := 2 ^ 64

/-- One step of the FNV-style accumulation in `DedupeHashFunc::operator()`:
`hash = (hash * 16777619) ^ b`, with the multiplication wrapping in `size_t`. -/
def hashStep (h b : Nat) : Nat := (h * 16777619 % szMod) ^^^ b

/-- The fixed final mixing steps at the end of `DedupeHashFunc::operator()`:
`hash += hash << 13; hash ^= hash >> 7; hash += hash << 3; hash ^= hash >> 17;
hash += hash << 5;` with additions and shifts wrapping in `size_t`. -/
def finalMix (h : Nat) : Nat :=
  let h1 := (h + (h <<< 13)) % szMod
  let h2 := h1 ^^^ (h1 >>> 7)
  let h3 := (h2 + (h2 <<< 3)) % szMod
  let h4 := h3 ^^^ (h3 >>> 17)
  (h4 + (h4 <<< 5)) % szMod

/-- Constant `kSmallArrayThreshold` from `DedupeHashFunc::operator()`. -/
def kSmallArrayThreshold : Nat := 16

/-- Constant `kRandomHashCount` from `DedupeHashFunc::operator()`. -/
def kRandomHashCount : Nat := 16

/-- Hash `DedupeHashFunc::operator()`: for arrays of at most `kSmallArrayThreshold` bytes,
fold every byte; for larger arrays, fold the two bytes at indices 6 and 7 and then,
for each `i` in `[2, kRandomHashCount)`, the byte at index
`(i * 1103515245 + 12345) % size`; finally apply the fixed mixing steps.
Out-of-range reads (undefined behaviour in C++) are modelled by `getD _ 0`. -/
def DedupeHashFunc (array : List Nat) : Nat :=
  let hash : Nat := 0x811c9dc5
  if array.length ≤ kSmallArrayThreshold then
    finalMix (array.foldl hashStep hash)
  else
    let h1 := ((List.range 2).map (fun i => array.getD (i + 6) 0)).foldl hashStep hash
    let h2 := (((List.range kRandomHashCount).drop 2).map
        (fun i => array.getD ((i * 1103515245 + 12345) % array.length) 0)).foldl hashStep h1
    finalMix h2

/-- The byte positions read by `DedupeHashFunc::operator()` on a large array of the
given size: indices 6 and 7, then `(i * 1103515245 + 12345) % size` for `i` in 2..15.
They are a function of the size alone. -/
def samplePositions (size : Nat) : List Nat :=
  (List.range 2).map (fun i => i + 6) ++
    ((List.range kRandomHashCount).drop 2).map (fun i => (i * 1103515245 + 12345) % size)

/-- C3: for every byte array at or below the 16-byte small-size threshold,
`DedupeHashFunc::operator()` folds every byte of the array into the accumulator
with `hash = (hash * 16777619) ^ b` starting from `0x811c9dc5`, followed by the
fixed final mixing steps: the hash is the full fold over all bytes, so it
incorporates every byte of the array. -/
theorem dedupe_hash_small_folds_every_byte (a : List Nat)
    (h : a.length ≤ kSmallArrayThreshold) :
    DedupeHashFunc a = finalMix (a.foldl hashStep 0x811c9dc5) := by
  simp [DedupeHashFunc, h]

/-- Witness for C3 at the concrete three-byte array `[1, 2, 3]`. -/
theorem dedupe_hash_small_folds_every_byte_witness :
    [1, 2, 3].length ≤ kSmallArrayThreshold ∧
      DedupeHashFunc [1, 2, 3] = finalMix ([1, 2, 3].foldl hashStep 0x811c9dc5) :=
  ⟨by decide, dedupe_hash_small_folds_every_byte [1, 2, 3] (by decide)⟩

/-- C4: for every byte array strictly larger than the 16-byte threshold,
`DedupeHashFunc::operator()` reads exactly the 16 byte positions given by
`samplePositions` (indices 6 and 7, plus `(i * 1103515245 + 12345) % size` for
`i` in 2..15), each of which lies strictly within the array's bounds; the hash is
the fold of the bytes at exactly those positions followed by the final mixing,
and the positions depend only on the array's size, so arrays of equal size that
agree at the sampled positions — in particular, equal arrays — hash alike. -/
theorem dedupe_hash_large_reads_in_bounds (a : List Nat)
    (h : kSmallArrayThreshold < a.length) :
    (samplePositions a.length).length = 16 ∧
      (∀ p ∈ samplePositions a.length, p < a.length) ∧
      DedupeHashFunc a =
        finalMix ((samplePositions a.length).foldl
          (fun acc p => hashStep acc (a.getD p 0)) 0x811c9dc5) ∧
      (∀ b : List Nat, b.length = a.length →
        (∀ p ∈ samplePositions a.length, b.getD p 0 = a.getD p 0) →
        DedupeHashFunc b = DedupeHashFunc a) := by
  have hlen : 16 < a.length := h
  refine ⟨by simp [samplePositions, kRandomHashCount], ?_, ?_, ?_⟩
  · intro p hp
    simp only [samplePositions, kRandomHashCount, List.mem_append, List.mem_map,
      List.mem_range] at hp
    rcases hp with ⟨i, hi, rfl⟩ | ⟨i, _, rfl⟩
    · omega
    · exact Nat.mod_lt _ (by omega)
  · simp only [DedupeHashFunc, samplePositions, List.foldl_append, List.foldl_map]
    rw [if_neg (by omega)]
  · intro b hb hagree
    have hb16 : ¬ b.length ≤ kSmallArrayThreshold := by
      simp [kSmallArrayThreshold] at *; omega
    have hfold : ∀ (l : List Nat) (init : Nat),
        (∀ p ∈ l, b.getD p 0 = a.getD p 0) →
        (l.map (fun p => b.getD p 0)).foldl hashStep init =
          (l.map (fun p => a.getD p 0)).foldl hashStep init := by
      intro l init hl
      have : l.map (fun p => b.getD p 0) = l.map (fun p => a.getD p 0) :=
        List.map_congr_left hl
      rw [this]
    simp only [DedupeHashFunc]
    rw [if_neg hb16, if_neg (by simpa [kSmallArrayThreshold] using Nat.not_le.mpr hlen)]
    have h67 : ∀ i ∈ List.range 2, b.getD (i + 6) 0 = a.getD (i + 6) 0 := by
      intro i hi
      refine hagree _ ?_
      simp only [samplePositions, List.mem_append, List.mem_map]
      exact Or.inl ⟨i, hi, rfl⟩
    have hrest : ∀ i ∈ (List.range kRandomHashCount).drop 2,
        b.getD ((i * 1103515245 + 12345) % a.length) 0 =
          a.getD ((i * 1103515245 + 12345) % a.length) 0 := by
      intro i hi
      refine hagree _ ?_
      simp only [samplePositions, List.mem_append, List.mem_map]
      exact Or.inr ⟨i, hi, rfl⟩
    rw [List.map_congr_left h67, hb, List.map_congr_left hrest]

/-- Witness for C4 at the concrete 17-byte array `List.range 17`. -/
theorem dedupe_hash_large_reads_in_bounds_witness :
    kSmallArrayThreshold < (List.range 17).length ∧
      (samplePositions (List.range 17).length).length = 16 ∧
      (∀ p ∈ samplePositions (List.range 17).length, p < (List.range 17).length) :=
  ⟨by decide,
    (dedupe_hash_large_reads_in_bounds (List.range 17) (by decide)).1,
    (dedupe_hash_large_reads_in_bounds (List.range 17) (by decide)).2.1⟩

/-! Patch records (`PatchInformation` and its subclasses) -/

/-- Enum `InvokeType` from `invoke_type.h` (referenced by the header). -/
inductive InvokeType where
  | kStatic
  | kDirect
  | kVirtual
  | kSuper
  | kInterface
  deriving DecidableEq, Repr

/-- Fields of the abstract base class `CompilerDriver::PatchInformation`:
`dex_file_` (a non-null `DexFile*`, modelled by an identity number),
`referrer_class_def_idx_`, `referrer_method_idx_`, `literal_offset_`. All fields
are `const`: a record is immutable after construction. -/
structure PatchBase where
  dex_file : Nat
  referrer_class_def_idx : Nat
  referrer_method_idx : Nat
  literal_offset : Nat
  deriving DecidableEq, Repr

/-- Class `CompilerDriver::CallPatchInformation` plus its subclass
`RelativeCallPatchInformation`: the `relative` field is `none` for a plain call
patch (whose virtual `IsRelative()` returns false and `RelativeOffset()` returns 0)
and `some d` for a relative call patch carrying `offset_ = d`. All fields are
`const`. -/
structure CallPatchInformation extends PatchBase where
  referrer_invoke_type : InvokeType
  target_method_idx : Nat
  target_invoke_type : InvokeType
  relative : Option Int
  deriving DecidableEq, Repr

/-- Class `CompilerDriver::TypePatchInformation`: adds `target_type_idx_`. -/
structure TypePatchInformation extends PatchBase where
  target_type_idx : Nat
  deriving DecidableEq, Repr

/-- A concrete `PatchInformation` object: the base class has a protected
constructor, so every instance is a call patch (possibly relative) or a type
patch. -/
inductive PatchInformation where
  | call (c : CallPatchInformation)
  | typeP (t : TypePatchInformation)
  deriving DecidableEq, Repr

def CallPatchInformation.GetDexFile (p : CallPatchInformation) : Nat :=
  p.dex_file

def CallPatchInformation.GetReferrerClassDefIdx (p : CallPatchInformation) : Nat :=
  p.referrer_class_def_idx

def CallPatchInformation.GetReferrerMethodIdx (p : CallPatchInformation) : Nat :=
  p.referrer_method_idx

def CallPatchInformation.GetLiteralOffset (p : CallPatchInformation) : Nat :=
  p.literal_offset

def CallPatchInformation.GetReferrerInvokeType (p : CallPatchInformation) : InvokeType :=
  p.referrer_invoke_type

def CallPatchInformation.GetTargetMethodIdx (p : CallPatchInformation) : Nat :=
  p.target_method_idx

def CallPatchInformation.GetTargetInvokeType (p : CallPatchInformation) : InvokeType :=
  p.target_invoke_type

/-- Virtual `IsRelative()`: the base `CallPatchInformation` returns false,
`RelativeCallPatchInformation` overrides it to true. -/
def CallPatchInformation.IsRelative (p : CallPatchInformation) : Bool :=
  p.relative.isSome

/-- Virtual `RelativeOffset()`: the base `CallPatchInformation` returns 0,
`RelativeCallPatchInformation` returns its `offset_`. -/
def CallPatchInformation.RelativeOffset (p : CallPatchInformation) : Int :=
  p.relative.getD 0

def TypePatchInformation.GetTargetTypeIdx (t : TypePatchInformation) : Nat :=
  t.target_type_idx

def PatchInformation.IsCall : PatchInformation → Bool
  | .call _ => true
  | .typeP _ => false

def PatchInformation.IsType : PatchInformation → Bool
  | .call _ => false
  | .typeP _ => true

/-- Virtual `AsCall()`: `LOG(FATAL) << "Unreachable"` on a non-call record is
modelled as `none`. -/
def PatchInformation.AsCall : PatchInformation → Option CallPatchInformation
  | .call c => some c
  | .typeP _ => none

/-- Virtual `AsType()`: `LOG(FATAL) << "Unreachable"` on a non-type record is
modelled as `none`. -/
def PatchInformation.AsType : PatchInformation → Option TypePatchInformation
  | .call _ => none
  | .typeP t => some t

/-- The `CallPatchInformation` constructor on a known non-null `dex_file`
(as invoked by `CompilerDriver::AddCodePatch` / `AddMethodPatch`). -/
def mkCallPatch (dex_file : Nat) (referrer_class_def_idx : Nat)
    (referrer_method_idx : Nat) (referrer_invoke_type : InvokeType)
    (target_method_idx : Nat) (target_invoke_type : InvokeType)
    (literal_offset : Nat) : CallPatchInformation :=
  { dex_file := dex_file
    referrer_class_def_idx := referrer_class_def_idx
    referrer_method_idx := referrer_method_idx
    literal_offset := literal_offset
    referrer_invoke_type := referrer_invoke_type
    target_method_idx := target_method_idx
    target_invoke_type := target_invoke_type
    relative := none }

/-- The `RelativeCallPatchInformation` constructor on a known non-null
`dex_file` (as invoked by `CompilerDriver::AddRelativeCodePatch`). -/
def mkRelativeCallPatch (dex_file : Nat) (referrer_class_def_idx : Nat)
    (referrer_method_idx : Nat) (referrer_invoke_type : InvokeType)
    (target_method_idx : Nat) (target_invoke_type : InvokeType)
    (literal_offset : Nat) (pc_relative_offset : Int) : CallPatchInformation :=
  { mkCallPatch dex_file referrer_class_def_idx referrer_method_idx
      referrer_invoke_type target_method_idx target_invoke_type literal_offset with
    relative := some pc_relative_offset }

/-- The `TypePatchInformation` constructor on a known non-null `dex_file`
(as invoked by `CompilerDriver::AddClassPatch`). -/
def mkTypePatch (dex_file : Nat) (referrer_class_def_idx : Nat)
    (referrer_method_idx : Nat) (target_type_idx : Nat)
    (literal_offset : Nat) : TypePatchInformation :=
  { dex_file := dex_file
    referrer_class_def_idx := referrer_class_def_idx
    referrer_method_idx := referrer_method_idx
    literal_offset := literal_offset
    target_type_idx := target_type_idx }

/-- The `PatchInformation` base-class constructor as actually written: it takes a
`const DexFile*` (here `Option Nat`, `none` being NULL) and runs
`CHECK(dex_file_ != NULL)`; a failed CHECK aborts, modelled as `none`. -/
def constructCallPatch (dex_file : Option Nat) (referrer_class_def_idx : Nat)
    (referrer_method_idx : Nat) (referrer_invoke_type : InvokeType)
    (target_method_idx : Nat) (target_invoke_type : InvokeType)
    (literal_offset : Nat) : Option CallPatchInformation :=
  dex_file.map (fun df => mkCallPatch df referrer_class_def_idx referrer_method_idx
    referrer_invoke_type target_method_idx target_invoke_type literal_offset)

/-- The `RelativeCallPatchInformation` constructor with its nullable
`const DexFile*`; construction with NULL fails the base-class CHECK. -/
def constructRelativeCallPatch (dex_file : Option Nat) (referrer_class_def_idx : Nat)
    (referrer_method_idx : Nat) (referrer_invoke_type : InvokeType)
    (target_method_idx : Nat) (target_invoke_type : InvokeType)
    (literal_offset : Nat) (pc_relative_offset : Int) : Option CallPatchInformation :=
  dex_file.map (fun df => mkRelativeCallPatch df referrer_class_def_idx
    referrer_method_idx referrer_invoke_type target_method_idx target_invoke_type
    literal_offset pc_relative_offset)

/-- The `TypePatchInformation` constructor with its nullable `const DexFile*`;
construction with NULL fails the base-class CHECK. -/
def constructTypePatch (dex_file : Option Nat) (referrer_class_def_idx : Nat)
    (referrer_method_idx : Nat) (target_type_idx : Nat)
    (literal_offset : Nat) : Option TypePatchInformation :=
  dex_file.map (fun df => mkTypePatch df referrer_class_def_idx referrer_method_idx
    target_type_idx literal_offset)

/-- C6: a call patch constructed with a given (non-null) module, referrer
class-def index, referrer method index, referrer invoke kind, target method
index, target invoke kind and literal offset round-trips all of them through the
getters `GetDexFile`, `GetReferrerClassDefIdx`, `GetReferrerMethodIdx`,
`GetReferrerInvokeType`, `GetTargetMethodIdx`, `GetTargetInvokeType` and
`GetLiteralOffset`; all fields being `const` and no mutating operation existing,
the record never changes after construction. -/
theorem call_patch_getters_roundtrip (df rcdi rmi : Nat) (rit : InvokeType)
    (tmi : Nat) (tit : InvokeType) (lo : Nat) :
    ∃ p : CallPatchInformation,
      constructCallPatch (some df) rcdi rmi rit tmi tit lo = some p ∧
      p.GetDexFile = df ∧
      p.GetReferrerClassDefIdx = rcdi ∧
      p.GetReferrerMethodIdx = rmi ∧
      p.GetReferrerInvokeType = rit ∧
      p.GetTargetMethodIdx = tmi ∧
      p.GetTargetInvokeType = tit ∧
      p.GetLiteralOffset = lo :=
  ⟨mkCallPatch df rcdi rmi rit tmi tit lo,
    rfl, rfl, rfl, rfl, rfl, rfl, rfl, rfl⟩

/-! The patch ledger (`code_to_patch_`, `methods_to_patch_`, `classes_to_patch_`) -/

/-- The three patch lists held by `CompilerDriver`: `code_to_patch_`,
`methods_to_patch_` (both vectors of `const CallPatchInformation*`) and
`classes_to_patch_` (a vector of `const TypePatchInformation*`). -/
structure PatchLedger where
  code_to_patch : List CallPatchInformation
  methods_to_patch : List CallPatchInformation
  classes_to_patch : List TypePatchInformation
  deriving DecidableEq, Repr

/-- Getter `GetCodeToPatch()`: returns a const reference to `code_to_patch_`. -/
def GetCodeToPatch (s : PatchLedger) : List CallPatchInformation :=
  s.code_to_patch

/-- Getter `GetMethodsToPatch()`: returns a const reference to `methods_to_patch_`. -/
def GetMethodsToPatch (s : PatchLedger) : List CallPatchInformation :=
  s.methods_to_patch

/-- Getter `GetClassesToPatch()`: returns a const reference to `classes_to_patch_`. -/
def GetClassesToPatch (s : PatchLedger) : List TypePatchInformation :=
  s.classes_to_patch

/-- Modelled from the spec: the body of `CompilerDriver::AddCodePatch` lives in
`compiler_driver.cc`, which is not among the sources; the spec says each record
operation appends a new immutable record at the end of the corresponding list
(`record_call_patch` appends, no removal API). `AddCodePatch` constructs a
`CallPatchInformation` and pushes it onto `code_to_patch_`. -/
def AddCodePatch (s : PatchLedger) (dex_file : Nat) (referrer_class_def_idx : Nat)
    (referrer_method_idx : Nat) (referrer_invoke_type : InvokeType)
    (target_method_idx : Nat) (target_invoke_type : InvokeType)
    (literal_offset : Nat) : PatchLedger :=
  { s with code_to_patch := s.code_to_patch ++
      [mkCallPatch dex_file referrer_class_def_idx referrer_method_idx
        referrer_invoke_type target_method_idx target_invoke_type literal_offset] }

/-- Modelled from the spec: the body of `CompilerDriver::AddRelativeCodePatch`
lives in `compiler_driver.cc`, not among the sources; it constructs a
`RelativeCallPatchInformation` carrying the PC-relative displacement and pushes
it onto `code_to_patch_`. -/
def AddRelativeCodePatch (s : PatchLedger) (dex_file : Nat)
    (referrer_class_def_idx : Nat) (referrer_method_idx : Nat)
    (referrer_invoke_type : InvokeType) (target_method_idx : Nat)
    (target_invoke_type : InvokeType) (literal_offset : Nat)
    (pc_relative_offset : Int) : PatchLedger :=
  { s with code_to_patch := s.code_to_patch ++
      [mkRelativeCallPatch dex_file referrer_class_def_idx referrer_method_idx
        referrer_invoke_type target_method_idx target_invoke_type literal_offset
        pc_relative_offset] }

/-- Modelled from the spec: the body of `CompilerDriver::AddMethodPatch` lives in
`compiler_driver.cc`, not among the sources; it constructs a
`CallPatchInformation` and pushes it onto `methods_to_patch_`. -/
def AddMethodPatch (s : PatchLedger) (dex_file : Nat) (referrer_class_def_idx : Nat)
    (referrer_method_idx : Nat) (referrer_invoke_type : InvokeType)
    (target_method_idx : Nat) (target_invoke_type : InvokeType)
    (literal_offset : Nat) : PatchLedger :=
  { s with methods_to_patch := s.methods_to_patch ++
      [mkCallPatch dex_file referrer_class_def_idx referrer_method_idx
        referrer_invoke_type target_method_idx target_invoke_type literal_offset] }

/-- Modelled from the spec: the body of `CompilerDriver::AddClassPatch` lives in
`compiler_driver.cc`, not among the sources; it constructs a
`TypePatchInformation` and pushes it onto `classes_to_patch_`. -/
def AddClassPatch (s : PatchLedger) (dex_file : Nat) (referrer_class_def_idx : Nat)
    (referrer_method_idx : Nat) (target_method_idx : Nat)
    (literal_offset : Nat) : PatchLedger :=
  { s with classes_to_patch := s.classes_to_patch ++
      [mkTypePatch dex_file referrer_class_def_idx referrer_method_idx
        target_method_idx literal_offset] }

/-- One record operation on the patch ledger, with its arguments. -/
inductive PatchOp where
  | code (df rcdi rmi : Nat) (rit : InvokeType) (tmi : Nat) (tit : InvokeType)
      (lo : Nat)
  | relCode (df rcdi rmi : Nat) (rit : InvokeType) (tmi : Nat) (tit : InvokeType)
      (lo : Nat) (d : Int)
  | methodP (df rcdi rmi : Nat) (rit : InvokeType) (tmi : Nat) (tit : InvokeType)
      (lo : Nat)
  | classP (df rcdi rmi tmi lo : Nat)

/-- Apply one record operation to the ledger. -/
def applyPatchOp (s : PatchLedger) : PatchOp → PatchLedger
  | .code df rcdi rmi rit tmi tit lo =>
      AddCodePatch s df rcdi rmi rit tmi tit lo
  | .relCode df rcdi rmi rit tmi tit lo d =>
      AddRelativeCodePatch s df rcdi rmi rit tmi tit lo d
  | .methodP df rcdi rmi rit tmi tit lo =>
      AddMethodPatch s df rcdi rmi rit tmi tit lo
  | .classP df rcdi rmi tmi lo =>
      AddClassPatch s df rcdi rmi tmi lo

/-- Apply a sequence of record operations in order. -/
def applyPatchOps (s : PatchLedger) (ops : List PatchOp) : PatchLedger :=
  ops.foldl applyPatchOp s

/-- The record an operation adds to `code_to_patch_`, if any. -/
def codeRecordOf : PatchOp → Option CallPatchInformation
  | .code df rcdi rmi rit tmi tit lo =>
      some (mkCallPatch df rcdi rmi rit tmi tit lo)
  | .relCode df rcdi rmi rit tmi tit lo d =>
      some (mkRelativeCallPatch df rcdi rmi rit tmi tit lo d)
  | _ => none

/-- The record an operation adds to `methods_to_patch_`, if any. -/
def methodRecordOf : PatchOp → Option CallPatchInformation
  | .methodP df rcdi rmi rit tmi tit lo =>
      some (mkCallPatch df rcdi rmi rit tmi tit lo)
  | _ => none

/-- The record an operation adds to `classes_to_patch_`, if any. -/
def classRecordOf : PatchOp → Option TypePatchInformation
  | .classP df rcdi rmi tmi lo => some (mkTypePatch df rcdi rmi tmi lo)
  | _ => none

/-- C5: the patch ledger is append-only and order-preserving. After any sequence
of record operations, `GetCodeToPatch` / `GetMethodsToPatch` / `GetClassesToPatch`
return exactly the previous contents followed by the newly recorded entries in
recording order: each operation appends exactly one record at the end of its
list, leaves every previously recorded entry unchanged, and nothing removes
records. -/
theorem patch_ledger_append_only (s : PatchLedger) (ops : List PatchOp) :
    GetCodeToPatch (applyPatchOps s ops) =
        GetCodeToPatch s ++ ops.filterMap codeRecordOf ∧
      GetMethodsToPatch (applyPatchOps s ops) =
        GetMethodsToPatch s ++ ops.filterMap methodRecordOf ∧
      GetClassesToPatch (applyPatchOps s ops) =
        GetClassesToPatch s ++ ops.filterMap classRecordOf := by
  induction ops generalizing s with
  | nil => simp [applyPatchOps, GetCodeToPatch, GetMethodsToPatch, GetClassesToPatch]
  | cons op rest ih =>
    have h := ih (applyPatchOp s op)
    refine ⟨?_, ?_, ?_⟩ <;>
      cases op <;>
        simp_all [applyPatchOps, applyPatchOp, AddCodePatch, AddRelativeCodePatch,
          AddMethodPatch, AddClassPatch, GetCodeToPatch, GetMethodsToPatch,
          GetClassesToPatch, codeRecordOf, methodRecordOf, classRecordOf]

/-- C7: a call patch recorded by `AddCodePatch` (absolute form) answers
`IsRelative() = false` and `RelativeOffset() = 0`, while a call patch recorded by
`AddRelativeCodePatch` with displacement `d` answers `IsRelative() = true` and
`RelativeOffset() = d`. -/
theorem call_patch_relative_forms (s : PatchLedger) (df rcdi rmi : Nat)
    (rit : InvokeType) (tmi : Nat) (tit : InvokeType) (lo : Nat) (d : Int) :
    (∃ p : CallPatchInformation,
        GetCodeToPatch (AddCodePatch s df rcdi rmi rit tmi tit lo) =
          GetCodeToPatch s ++ [p] ∧
        p.IsRelative = false ∧ p.RelativeOffset = 0) ∧
      (∃ q : CallPatchInformation,
        GetCodeToPatch (AddRelativeCodePatch s df rcdi rmi rit tmi tit lo d) =
          GetCodeToPatch s ++ [q] ∧
        q.IsRelative = true ∧ q.RelativeOffset = d) :=
  ⟨⟨mkCallPatch df rcdi rmi rit tmi tit lo, rfl, rfl, rfl⟩,
    ⟨mkRelativeCallPatch df rcdi rmi rit tmi tit lo d, rfl, rfl, rfl⟩⟩

/-- C10: the variant tags of a patch record are exclusive — no record answers
both `IsCall()` and `IsType()`; a call patch answers `IsCall() = true`,
`IsType() = false` and a type patch the reverse; `AsCall()` on a record whose
`IsCall()` is false, and `AsType()` on a record whose `IsType()` is false, hit
the fatal `LOG(FATAL) << "Unreachable"` branch (modelled as `none`), while on the
matching variant they succeed; and constructing any patch record with a NULL
module pointer fails the base-class `CHECK(dex_file_ != NULL)` and aborts. -/
theorem patch_variant_tags_exclusive (p : PatchInformation) (rcdi rmi : Nat)
    (rit : InvokeType) (tmi : Nat) (tit : InvokeType) (lo : Nat) (d : Int) :
    (¬ (p.IsCall = true ∧ p.IsType = true)) ∧
      (p.IsCall = false → p.AsCall = none) ∧
      (p.IsCall = true → ∃ c, p.AsCall = some c) ∧
      (p.IsType = false → p.AsType = none) ∧
      (p.IsType = true → ∃ t, p.AsType = some t) ∧
      constructCallPatch none rcdi rmi rit tmi tit lo = none ∧
      constructRelativeCallPatch none rcdi rmi rit tmi tit lo d = none ∧
      constructTypePatch none rcdi rmi tmi lo = none := by
  refine ⟨?_, ?_, ?_, ?_, ?_, rfl, rfl, rfl⟩ <;>
    cases p <;>
      simp [PatchInformation.IsCall, PatchInformation.IsType,
        PatchInformation.AsCall, PatchInformation.AsType]

/-- Witness for C10: a concrete call patch has `IsType() = false`, so its
`AsType()` is fatal, and constructing a call patch from a NULL module aborts. -/
theorem patch_variant_tags_exclusive_witness :
    (PatchInformation.call
        (mkCallPatch 0 1 2 InvokeType.kStatic 3 InvokeType.kDirect 4)).IsType
        = false ∧
      (PatchInformation.call
        (mkCallPatch 0 1 2 InvokeType.kStatic 3 InvokeType.kDirect 4)).AsType
        = none ∧
      constructCallPatch none 1 2 InvokeType.kStatic 3 InvokeType.kDirect 4 = none :=
  ⟨rfl,
    (patch_variant_tags_exclusive
      (PatchInformation.call
        (mkCallPatch 0 1 2 InvokeType.kStatic 3 InvokeType.kDirect 4))
      1 2 InvokeType.kStatic 3 InvokeType.kDirect 4 0).2.2.2.1 rfl,
    (patch_variant_tags_exclusive
      (PatchInformation.call
        (mkCallPatch 0 1 2 InvokeType.kStatic 3 InvokeType.kDirect 4))
      1 2 InvokeType.kStatic 3 InvokeType.kDirect 4 0).2.2.2.2.2.1⟩

/-! The dedupe stores (`dedupe_code_`, `dedupe_mapping_table_`, `dedupe_vmap_table_`, `dedupe_gc_map_`) -/

/-- First index of a buffer with the given content in a store, if any. -/
def findIdx : List (List Nat) → List Nat → Option Nat
  | [], _ => none
  | c :: rest, b => if c = b then some 0 else (findIdx rest b).map (· + 1)

/-- Modelled from the spec: the `DedupeSet` template lives in
`utils/dedupe_set.h`, which is not among the sources. The spec's contract for
`intern(bytes)`: if an entry with identical content already exists, return the
existing handle without allocating a new buffer, otherwise insert the buffer and
return a new handle. A store is the list of canonical buffers in insertion
order; a handle is the index of the canonical buffer. -/
def internIdx (store : List (List Nat)) (b : List Nat) : List (List Nat) × Nat :=
  match findIdx store b with
  | some i => (store, i)
  | none => (store ++ [b], store.length)

/-- The four independent stores owned by `CompilerDriver`. -/
structure DedupeStores where
  dedupe_code : List (List Nat)
  dedupe_mapping_table : List (List Nat)
  dedupe_vmap_table : List (List Nat)
  dedupe_gc_map : List (List Nat)
  deriving DecidableEq, Repr

/-- Modelled from the spec: the body of `CompilerDriver::DeduplicateCode` lives
in `compiler_driver.cc`, not among the sources; it interns the buffer into
`dedupe_code_`. -/
def DeduplicateCode (s : DedupeStores) (code : List Nat) : DedupeStores × Nat :=
  let r := internIdx s.dedupe_code code
  ({ s with dedupe_code := r.1 }, r.2)

/-- Modelled from the spec: `CompilerDriver::DeduplicateMappingTable` interns
the buffer into `dedupe_mapping_table_` (body in `compiler_driver.cc`). -/
def DeduplicateMappingTable (s : DedupeStores) (code : List Nat) :
    DedupeStores × Nat :=
  let r := internIdx s.dedupe_mapping_table code
  ({ s with dedupe_mapping_table := r.1 }, r.2)

/-- Modelled from the spec: `CompilerDriver::DeduplicateVMapTable` interns the
buffer into `dedupe_vmap_table_` (body in `compiler_driver.cc`). -/
def DeduplicateVMapTable (s : DedupeStores) (code : List Nat) :
    DedupeStores × Nat :=
  let r := internIdx s.dedupe_vmap_table code
  ({ s with dedupe_vmap_table := r.1 }, r.2)

/-- Modelled from the spec: `CompilerDriver::DeduplicateGCMap` interns the
buffer into `dedupe_gc_map_` (body in `compiler_driver.cc`). -/
def DeduplicateGCMap (s : DedupeStores) (code : List Nat) : DedupeStores × Nat :=
  let r := internIdx s.dedupe_gc_map code
  ({ s with dedupe_gc_map := r.1 }, r.2)

theorem findIdx_getD (store : List (List Nat)) (b : List Nat) (i : Nat)
    (h : findIdx store b = some i) : store.getD i [] = b := by
  induction store generalizing i with
  | nil => simp [findIdx] at h
  | cons c rest ih =>
    by_cases hc : c = b
    · simp [findIdx, hc] at h
      subst h
      simpa using hc
    · simp [findIdx, hc] at h
      obtain ⟨j, hj, rfl⟩ := h
      simpa using ih j hj

theorem findIdx_append_self (store : List (List Nat)) (b : List Nat)
    (h : findIdx store b = none) :
    findIdx (store ++ [b]) b = some store.length := by
  induction store with
  | nil => simp [findIdx]
  | cons c rest ih =>
    by_cases hc : c = b
    · simp [findIdx, hc] at h
    · simp [findIdx, hc] at h ⊢
      exact ih h

theorem internIdx_content (store : List (List Nat)) (b : List Nat) :
    (internIdx store b).1.getD (internIdx store b).2 [] = b := by
  cases h : findIdx store b with
  | some i => simpa [internIdx, h] using findIdx_getD store b i h
  | none => simp [internIdx, h]

theorem internIdx_idem (store : List (List Nat)) (b : List Nat) :
    internIdx (internIdx store b).1 b = internIdx store b := by
  cases h : findIdx store b with
  | some i => simp [internIdx, h]
  | none => simp [internIdx, h, findIdx_append_self store b h]

/-- C1: interning is idempotent and canonicalizing. For every byte sequence `b`
and each of the four stores, `DeduplicateCode` (resp. `DeduplicateMappingTable`,
`DeduplicateVMapTable`, `DeduplicateGCMap`) returns a handle whose buffer
content equals `b`, and interning content equal to `b` a second time into the
resulting store returns the very same canonical buffer and leaves the store
unchanged — no new buffer is allocated. -/
theorem dedupe_intern_idempotent (s : DedupeStores) (b : List Nat) :
    ((DeduplicateCode s b).1.dedupe_code.getD (DeduplicateCode s b).2 [] = b ∧
        DeduplicateCode (DeduplicateCode s b).1 b = DeduplicateCode s b) ∧
      ((DeduplicateMappingTable s b).1.dedupe_mapping_table.getD
          (DeduplicateMappingTable s b).2 [] = b ∧
        DeduplicateMappingTable (DeduplicateMappingTable s b).1 b =
          DeduplicateMappingTable s b) ∧
      ((DeduplicateVMapTable s b).1.dedupe_vmap_table.getD
          (DeduplicateVMapTable s b).2 [] = b ∧
        DeduplicateVMapTable (DeduplicateVMapTable s b).1 b =
          DeduplicateVMapTable s b) ∧
      ((DeduplicateGCMap s b).1.dedupe_gc_map.getD (DeduplicateGCMap s b).2 [] = b ∧
        DeduplicateGCMap (DeduplicateGCMap s b).1 b = DeduplicateGCMap s b) := by
  refine ⟨⟨internIdx_content s.dedupe_code b, ?_⟩,
      ⟨internIdx_content s.dedupe_mapping_table b, ?_⟩,
      ⟨internIdx_content s.dedupe_vmap_table b, ?_⟩,
      ⟨internIdx_content s.dedupe_gc_map b, ?_⟩⟩ <;>
    simp [DeduplicateCode, DeduplicateMappingTable, DeduplicateVMapTable,
      DeduplicateGCMap, internIdx_idem]

/-! The artifact tables (`compiled_classes_`, `compiled_methods_`) -/

/-- Type `ClassReference` from `class_reference.h`: (dex file identity, class-def
index). -/
structure ClassReference where
  dex_file : Nat
  class_def_idx : Nat
  deriving DecidableEq, Repr

/-- Type `MethodReference` from `method_reference.h`: (dex file identity, method
index). -/
structure MethodReference where
  dex_file : Nat
  method_idx : Nat
  deriving DecidableEq, Repr

/-- A `CompiledClass*` artifact, identified by its identity; the payload content
does not matter for the table discipline. -/
abbrev CompiledClass := Nat

/-- A `CompiledMethod*` artifact, identified by its identity. -/
abbrev CompiledMethod := Nat

/-- Lookup in an artifact table held as an association list in insertion
order. -/
def tableGet {κ α : Type} [DecidableEq κ] : List (κ × α) → κ → Option α
  | [], _ => none
  | (k, v) :: rest, r => if k = r then some v else tableGet rest r

/-- Modelled from the spec: the table mutators live in `compiler_driver.cc` and
`safe_map.h`, not among the sources; the spec says insertion is at-most-once per
reference and a re-insertion for the same reference is a fatal logic error, not a
silent overwrite. A rejected insertion is modelled as `none`. -/
def tablePut {κ α : Type} [DecidableEq κ] (t : List (κ × α)) (k : κ) (v : α) :
    Option (List (κ × α)) :=
  match tableGet t k with
  | some _ => none
  | none => some (t ++ [(k, v)])

/-- Getter `CompilerDriver::GetCompiledClass`: lookup in `compiled_classes_`. -/
def GetCompiledClass (compiled_classes : List (ClassReference × CompiledClass))
    (ref : ClassReference) : Option CompiledClass :=
  tableGet compiled_classes ref

/-- Getter `CompilerDriver::GetCompiledMethod`: lookup in `compiled_methods_`. -/
def GetCompiledMethod (compiled_methods : List (MethodReference × CompiledMethod))
    (ref : MethodReference) : Option CompiledMethod :=
  tableGet compiled_methods ref

/-- Modelled from the spec: insertion of a `CompiledClass` artifact into
`compiled_classes_` (performed in `compiler_driver.cc`, not among the
sources). -/
def putCompiledClass (compiled_classes : List (ClassReference × CompiledClass))
    (ref : ClassReference) (c : CompiledClass) :
    Option (List (ClassReference × CompiledClass)) :=
  tablePut compiled_classes ref c

/-- Modelled from the spec: insertion of a `CompiledMethod` artifact into
`compiled_methods_` (performed in `compiler_driver.cc`, not among the
sources). -/
def putCompiledMethod (compiled_methods : List (MethodReference × CompiledMethod))
    (ref : MethodReference) (m : CompiledMethod) :
    Option (List (MethodReference × CompiledMethod)) :=
  tablePut compiled_methods ref m

theorem tableGet_append_self {κ α : Type} [DecidableEq κ]
    (t : List (κ × α)) (k : κ) (v : α) (h : tableGet t k = none) :
    tableGet (t ++ [(k, v)]) k = some v := by
  induction t with
  | nil => simp [tableGet]
  | cons p rest ih =>
    by_cases hk : p.1 = k
    · simp [tableGet, hk] at h
    · simp [tableGet, hk] at h ⊢
      exact ih h

/-- C2: artifact insertion is at-most-once per reference, for both the class
table and the method table. If an artifact is already stored for a reference, a
second insertion is rejected as fatal (`none`) rather than overwriting; if none
is stored, insertion succeeds by appending the single new entry, after which
`GetCompiledClass` / `GetCompiledMethod` return exactly the stored artifact
(and before which they return nothing). -/
theorem artifact_tables_at_most_once
    (ct : List (ClassReference × CompiledClass))
    (mt : List (MethodReference × CompiledMethod))
    (cref : ClassReference) (mref : MethodReference)
    (cc : CompiledClass) (cm : CompiledMethod) :
    ((∃ c0, GetCompiledClass ct cref = some c0) →
        putCompiledClass ct cref cc = none) ∧
      (GetCompiledClass ct cref = none →
        putCompiledClass ct cref cc = some (ct ++ [(cref, cc)]) ∧
          GetCompiledClass (ct ++ [(cref, cc)]) cref = some cc) ∧
      ((∃ m0, GetCompiledMethod mt mref = some m0) →
        putCompiledMethod mt mref cm = none) ∧
      (GetCompiledMethod mt mref = none →
        putCompiledMethod mt mref cm = some (mt ++ [(mref, cm)]) ∧
          GetCompiledMethod (mt ++ [(mref, cm)]) mref = some cm) := by
  refine ⟨?_, ?_, ?_, ?_⟩
  · rintro ⟨c0, hc⟩
    simp [putCompiledClass, tablePut, GetCompiledClass] at *
    simp [hc]
  · intro h
    simp only [GetCompiledClass] at h
    exact ⟨by simp [putCompiledClass, tablePut, h],
      by simpa [GetCompiledClass] using tableGet_append_self ct cref cc h⟩
  · rintro ⟨m0, hm⟩
    simp [putCompiledMethod, tablePut, GetCompiledMethod] at *
    simp [hm]
  · intro h
    simp only [GetCompiledMethod] at h
    exact ⟨by simp [putCompiledMethod, tablePut, h],
      by simpa [GetCompiledMethod] using tableGet_append_self mt mref cm h⟩

/-- Witness for C2 at concrete tables: a second insertion for an occupied class
reference is rejected, and a first insertion for a fresh method reference
succeeds and is returned by the getter. -/
theorem artifact_tables_at_most_once_witness :
    putCompiledClass [(⟨0, 0⟩, 7)] ⟨0, 0⟩ 9 = none ∧
      putCompiledMethod [] ⟨1, 2⟩ 5 = some [(⟨1, 2⟩, 5)] ∧
      GetCompiledMethod [(⟨1, 2⟩, 5)] ⟨1, 2⟩ = some 5 := by
  refine ⟨?_, ?_, ?_⟩
  · exact (artifact_tables_at_most_once [(⟨0, 0⟩, 7)] [] ⟨0, 0⟩ ⟨1, 2⟩ 9 5).1
      ⟨7, by decide⟩
  · exact ((artifact_tables_at_most_once [(⟨0, 0⟩, 7)] [] ⟨0, 0⟩ ⟨1, 2⟩ 9 5).2.2.2
      (by decide)).1
  · exact ((artifact_tables_at_most_once [(⟨0, 0⟩, 7)] [] ⟨0, 0⟩ ⟨1, 2⟩ 9 5).2.2.2
      (by decide)).2

/-! Class resolution precedence and the image-class predicate -/

/-- A module (dex file) as relevant to resolution: the classes it defines,
as an association from descriptor to the defining class's identity. -/
structure DexFileModel where
  classes : List (String × Nat)
  deriving DecidableEq, Repr

/-- Modelled from the spec: the body of `CompilerDriver::Resolve` lives in
`compiler_driver.cc`, not among the sources; the header documents that it
resolves references "following PathClassLoader ordering semantics" and the spec
says the first module in the ordered list defining a name wins (classpath
shadowing). Resolution of a descriptor walks the modules in order and returns
the definition from the first module that defines it. -/
def ResolveClass (dex_files : List DexFileModel) (descriptor : String) :
    Option Nat :=
  match dex_files with
  | [] => none
  | d :: rest =>
    match tableGet d.classes descriptor with
    | some c => some c
    | none => ResolveClass rest descriptor

/-- C8: resolution follows class-loader precedence deterministically. If no
module before `A` defines descriptor `x` and `A` defines `x` with definition `a`,
then resolving `x` against the ordered module list yields `A`'s definition `a` —
never the definition of any later module `B`, whatever `B` defines; and being a
pure function of the ordered module list, the result does not depend on any
scheduling of the per-class work. -/
theorem resolve_first_module_wins (pre : List DexFileModel) (A : DexFileModel)
    (post : List DexFileModel) (x : String) (a : Nat)
    (hpre : ∀ d ∈ pre, tableGet d.classes x = none)
    (hA : tableGet A.classes x = some a) :
    ResolveClass (pre ++ A :: post) x = some a ∧
      ∀ b, b ≠ a → ResolveClass (pre ++ A :: post) x ≠ some b := by
  have hmain : ResolveClass (pre ++ A :: post) x = some a := by
    induction pre with
    | nil => simp [ResolveClass, hA]
    | cons d rest ih =>
      have hd : tableGet d.classes x = none := hpre d (by simp)
      have := ih (fun d' hd' => hpre d' (by simp [hd']))
      simpa [ResolveClass, hd] using this
  refine ⟨hmain, fun b hb hcontra => hb ?_⟩
  rw [hmain] at hcontra
  exact (Option.some.inj hcontra).symm

/-- Witness for C8: two modules both defining descriptor `LX;`, the earlier with
definition 1, the later with definition 2; resolution returns 1 and not 2. -/
theorem resolve_first_module_wins_witness :
    ResolveClass [⟨[("LX;", 1)]⟩, ⟨[("LX;", 2)]⟩] "LX;" = some 1 ∧
      ResolveClass [⟨[("LX;", 1)]⟩, ⟨[("LX;", 2)]⟩] "LX;" ≠ some 2 :=
  ⟨(resolve_first_module_wins [] ⟨[("LX;", 1)]⟩ [⟨[("LX;", 2)]⟩] "LX;" 1
      (by simp) (by decide)).1,
    (resolve_first_module_wins [] ⟨[("LX;", 1)]⟩ [⟨[("LX;", 2)]⟩] "LX;" 1
      (by simp) (by decide)).2 2 (by decide)⟩

/-- Modelled from the spec: the body of `CompilerDriver::IsImageClass` lives in
`compiler_driver.cc`, not among the sources; the header documents the policy on
`image_classes_`: "Note if image_classes_ is NULL, all classes are included in
the image", and otherwise the set specifies the classes included. `none` models
a NULL `DescriptorSet*`. -/
def IsImageClass (image_classes : Option (List String)) (descriptor : String) :
    Bool :=
  match image_classes with
  | none => true
  | some s => s.contains descriptor

/-- C9: with no image-class set (NULL), `IsImageClass` returns true for every
descriptor; with a set supplied, it returns true exactly for the descriptors
contained in the set. -/
theorem is_image_class_policy (s : List String) (d : String) :
    IsImageClass none d = true ∧ (IsImageClass (some s) d = true ↔ d ∈ s) := by
  exact ⟨rfl, by simp [IsImageClass]⟩

end ArtDriver
